import Mathlib

/-!
# Verification of the EPICS Environment Manager dependency scripts

A shallow embedding of `scripts/check_excludes.py` and
`scripts/get_prerequisites.py`, together with theorems settling the
specification claims about version parsing and comparison, constraint
checking, version matching, dependency resolution and the bounded
transitive solver.

Machine integers do not matter here: Python integers are unbounded and all
version components are non-negative, so they are modelled as `Nat`.
Filesystem state is modelled by explicit environment structures whose
fields record exactly the queries the Python code makes (directory
listings, file existence, file contents as lists of lines).
-/

namespace Require

/-! ## check_excludes.py -/

/-- `EpicsModule = collections.namedtuple('EpicsModule', 'major minor patch exact')`
(check_excludes.py line 38). -/
structure EpicsModule where
  major : Nat
  minor : Nat
  patch : Nat
  exact : Bool
deriving DecidableEq, Repr

/-- Value of a run of decimal digits, most significant first.  Models Python
`int()` applied to the digit strings captured by the regexes below (those are
always pure decimal digit runs, so no sign/whitespace handling is needed). -/
def digitsToNat (ds : List Char) : Nat :=
  ds.foldl (fun n c => 10 * n + (c.toNat - 48)) 0

/-- One number group `(0|[1-9][0-9]*)` of the version regexes, matched at the
head of the input with Python `re` semantics: the ordered alternation takes the
single digit `0` when the input starts with `0`, otherwise the maximal digit
run starting with a nonzero digit.  (The following regex elements — `\.`, `\+?`
or end of pattern — can never consume a digit, so greedy maximal munch is
exactly the backtracking behaviour.)  Returns the value and the rest. -/
def parseNum : List Char → Option (Nat × List Char)
  | [] => none
  | c :: rest =>
    if c = '0' then some (0, rest)
    else if '1' ≤ c ∧ c ≤ '9' then
      some (digitsToNat (c :: rest.takeWhile Char.isDigit), rest.dropWhile Char.isDigit)
    else none

/-- The `(\+?)` group: it captures `"+"` exactly when the next character is `'+'`. -/
def plusFlag : List Char → Bool
  | '+' :: _ => true
  | _ => false

/-- `re.match(r'(0|[1-9][0-9]*)\.(0|[1-9][0-9]*)\.(0|[1-9][0-9]*)(\+?)', version)`
(check_excludes.py line 62), including the construction of the tuple on line 64:
`exact = not group(4) == '+'`.  `re.match` anchors at the start only, so
trailing garbage after the match is ignored. -/
def p1 (cs : List Char) : Option EpicsModule :=
  match parseNum cs with
  | some (a, '.' :: r1) =>
    match parseNum r1 with
    | some (b, '.' :: r2) =>
      match parseNum r2 with
      | some (c, r3) => some ⟨a, b, c, !plusFlag r3⟩
      | none => none
    | _ => none
  | _ => none

/-- `re.match(r'(0|[1-9][0-9]*)\.(0|[1-9][0-9]*)(\+?)', version)`
(check_excludes.py line 65), with line 67's tuple construction. -/
def p2 (cs : List Char) : Option EpicsModule :=
  match parseNum cs with
  | some (a, '.' :: r1) =>
    match parseNum r1 with
    | some (b, r2) => some ⟨a, b, 0, !plusFlag r2⟩
    | none => none
  | _ => none

/-- `re.match(r'(0|[1-9][0-9]*)(\+?)', version)` (check_excludes.py line 68),
with line 70's tuple construction. -/
def p3 (cs : List Char) : Option EpicsModule :=
  match parseNum cs with
  | some (a, r1) => some ⟨a, 0, 0, !plusFlag r1⟩
  | none => none

/-- `version_to_tup` (check_excludes.py lines 58–71): try the three patterns in
decreasing specificity; if none matches, return the zero spec with
`exact = False`. -/
def version_to_tup (version : String) : EpicsModule :=
  match p1 version.data with
  | some m => m
  | none =>
    match p2 version.data with
    | some m => m
    | none =>
      match p3 version.data with
      | some m => m
      | none => ⟨0, 0, 0, false⟩

/-- The cascading comparison used by `module_compare` for a strict operator
`op` (check_excludes.py lines 44–48): major first, minor only when the majors
agree, patch only when major and minor agree. -/
def cascade (op : Nat → Nat → Bool) (lhs rhs : EpicsModule) : Bool :=
  op lhs.major rhs.major ||
  (lhs.major == rhs.major && op lhs.minor rhs.minor) ||
  (lhs.major == rhs.major && lhs.minor == rhs.minor && op lhs.patch rhs.patch)

/-- Component-wise tuple equality, the `comp == '='` case and the extra
disjunct for `<=`/`>=` (check_excludes.py lines 54 and 56). -/
def tupEq (lhs rhs : EpicsModule) : Bool :=
  lhs.major == rhs.major && lhs.minor == rhs.minor && lhs.patch == rhs.patch

/-- `module_compare` (check_excludes.py lines 40–56).  For `<=`/`>=` the
cascade uses the stripped one-character operator (`comp[0]`), with tuple
equality as an extra satisfying case.  Python returns `None` (falsy) when
`comp` is none of the five operators; that is the `none` case here. -/
def module_compare (lhs rhs : EpicsModule) (comp : String) : Option Bool :=
  if comp = "<" then some (cascade (fun a b => a < b) lhs rhs)
  else if comp = ">" then some (cascade (fun a b => b < a) lhs rhs)
  else if comp = "<=" then some (cascade (fun a b => a < b) lhs rhs || tupEq lhs rhs)
  else if comp = ">=" then some (cascade (fun a b => b < a) lhs rhs || tupEq lhs rhs)
  else if comp = "=" then some (tupEq lhs rhs)
  else none

/-- The version regex of `check` (check_excludes.py line 76) is the pattern of
`p1` without the `(\+?)` group, which never affects matching, so a version is
valid exactly when `p1` succeeds. -/
def valid_version (s : String) : Bool :=
  (p1 s.data).isSome

/-- `re.match(r'^([<>]=?|=)([\d\.]*)(\+?)$', condition)` (check_excludes.py
line 81): the operator group, matched greedily and in order. -/
def parse_op : List Char → Option (String × List Char)
  | '<' :: '=' :: rest => some ("<=", rest)
  | '<' :: rest => some ("<", rest)
  | '>' :: '=' :: rest => some (">=", rest)
  | '>' :: rest => some (">", rest)
  | '=' :: rest => some ("=", rest)
  | _ => none

/-- The full condition regex `^([<>]=?|=)([\d\.]*)(\+?)$`: operator, then a
greedy run over `[0-9.]`, then an optional `'+'`, then end of string (the
pattern is anchored on both sides).  Returns (operator, version text, plus?).
Shrinking the greedy run can only expose a digit or a dot, which neither
`\+?` nor `$` accepts, so greedy matching is exact here as well. -/
def parse_cond (cs : List Char) : Option (String × String × Bool) :=
  match parse_op cs with
  | none => none
  | some (op, rest) =>
    let vs := rest.takeWhile (fun c => c.isDigit || c = '.')
    match rest.dropWhile (fun c => c.isDigit || c = '.') with
    | [] => some (op, String.mk vs, false)
    | ['+'] => some (op, String.mk vs, true)
    | _ => none

/-- The condition loop of `check` (check_excludes.py lines 80–92).  NOTE: on a
condition that fails to parse, the source executes `return False` for the whole
call (line 84) — it does not skip to the next condition. -/
def check_conds (version : String) : List String → Bool
  | [] => false
  | cond :: rest =>
    match parse_cond cond.data with
    | none => false
    | some (comp, rversion, plus) =>
      let comp := if plus then ">=" else comp
      if (module_compare (version_to_tup version) (version_to_tup rversion) comp).getD false
      then true
      else check_conds version rest

/-- `check` (check_excludes.py lines 73–92): reject versions that are not in
three-component numeric form, then run the condition loop. -/
def check (version : String) (conditions : List String) : Bool :=
  if valid_version version then check_conds version conditions else false

/-- `module_match` (check_excludes.py lines 94–108), transcribed verbatim —
including the two self-comparisons present in the source: line 102 reads
`ver.major == ver.major` and line 107 reads `oth.major == oth.major`. -/
def module_match (ver oth : EpicsModule) : Bool :=
  ver.major == 0 ||
  (ver.exact &&
    ((ver.minor == 0 && oth.major == ver.major) ||
     (ver.patch == 0 && oth.major == ver.major && oth.minor == ver.minor) ||
     (ver.major == ver.major && oth.minor == ver.minor && oth.patch == ver.patch))) ||
  (!ver.exact &&
    ((ver.minor == 0 && oth.major ≥ ver.major) ||
     (ver.patch == 0 && oth.major == oth.major && oth.minor ≥ ver.minor) ||
     (oth.major == ver.major && oth.minor == ver.minor && oth.patch ≥ ver.patch)))

/-- `module_match` on strings, as called from get_prerequisites.py line 272:
the `isinstance(…, str)` branches of lines 96–97 convert via `version_to_tup`. -/
def module_match_str (version other : String) : Bool :=
  module_match (version_to_tup version) (version_to_tup other)

/-! ## get_prerequisites.py -/

/-- A dependency: `(moduleName, version)` where the version is `none` for a
system-level dependency (Python `None`). -/
abbrev Dep := String × Option String

/-- Python `s.rsplit(sep, 1)`: split off the part after the LAST occurrence of
`sep`; the second component is `none` when `sep` does not occur (Python then
returns the one-element list `[s]`). -/
def rsplit1 (sep : Char) (s : String) : String × Option String :=
  let r := s.data.reverse
  match r.dropWhile (fun c => c ≠ sep) with
  | [] => (s, none)
  | _ :: beforeRev =>
    (String.mk beforeRev.reverse, some (String.mk (r.takeWhile (fun c => c ≠ sep)).reverse))

/-- Python `s.split(sep, 2)` for a single-character separator: at most two
splits, everything after the second separator stays in the last part. -/
def split2 (sep : Char) (s : String) : List String :=
  let l := s.data
  match l.dropWhile (fun c => c ≠ sep) with
  | [] => [String.mk l]
  | _ :: r1 =>
    match r1.dropWhile (fun c => c ≠ sep) with
    | [] => [String.mk (l.takeWhile (fun c => c ≠ sep)), String.mk r1]
    | _ :: r2 =>
      [String.mk (l.takeWhile (fun c => c ≠ sep)),
       String.mk (r1.takeWhile (fun c => c ≠ sep)), String.mk r2]

/-- Python `int()` on the digit strings produced by `split2` on versions that
passed the strict numeric regex (always plain decimal digit runs there). -/
def pyint (s : String) : Nat :=
  digitsToNat s.data

/-- `module_key` (get_prerequisites.py lines 39–44): `version.split('.', 2)`,
a triple of ints if there are exactly three parts, else `(0, 0, 0)`. -/
def module_key (version : String) : Nat × Nat × Nat :=
  match split2 '.' version with
  | [a, b, c] => (pyint a, pyint b, pyint c)
  | _ => (0, 0, 0)

/-- Lexicographic `≤` on key triples — Python's tuple comparison, used by
`sorted(…, key=module_key)`. -/
def keyLex (a b : Nat × Nat × Nat) : Bool :=
  a.1 < b.1 || (a.1 == b.1 && (a.2.1 < b.2.1 || (a.2.1 == b.2.1 && a.2.2 ≤ b.2.2)))

/-- The sorting relation on version strings used by
`sorted(installed_versions, key=module_key)` (get_prerequisites.py line 270). -/
def sortKey (a b : String) : Prop :=
  keyLex (module_key a) (module_key b) = true

instance : DecidableRel sortKey := fun a b => by
  unfold sortKey
  infer_instance

instance : IsTotal String sortKey :=
  ⟨fun a b => by
    simp only [sortKey, keyLex, Bool.or_eq_true, Bool.and_eq_true, decide_eq_true_eq,
      beq_iff_eq]
    omega⟩

instance : IsTrans String sortKey :=
  ⟨fun a b c hab hbc => by
    simp only [sortKey, keyLex, Bool.or_eq_true, Bool.and_eq_true, decide_eq_true_eq,
      beq_iff_eq] at hab hbc ⊢
    omega⟩

/-- `re.match(r'(0|[1-9][0-9]*)\.(0|[1-9][0-9]*)\.(0|[1-9][0-9]*)$', version)`
(get_prerequisites.py lines 150 and 266): the anchored strict three-component
numeric pattern. -/
def numeric3 (s : String) : Bool :=
  match p1 s.data with
  | some _ =>
    match parseNum s.data with
    | some (_, '.' :: r1) =>
      match parseNum r1 with
      | some (_, '.' :: r2) =>
        match parseNum r2 with
        | some (_, []) => true
        | _ => false
      | _ => false
    | _ => false
  | none => false

/-- Python `str.strip()` with no argument: remove leading and trailing
whitespace (on the character set that occurs in these text files). -/
def pyStrip (s : String) : String :=
  String.mk (((s.data.dropWhile Char.isWhitespace).reverse.dropWhile
    Char.isWhitespace).reverse)

/-- `search_dep_file` (get_prerequisites.py lines 279–286): scan the lines for
the first whose name part (before the last comma, after `strip()`) equals
`module` and return its version part.  A matching line without a comma makes
Python raise `IndexError` on `lsplit[1]`; that is the `.error` case. -/
def search_dep_file (lines : List String) (module : String) : Except Unit (Option String) :=
  match lines with
  | [] => .ok none
  | line :: rest =>
    let ls := rsplit1 ',' (pyStrip line)
    if ls.1 = module then
      match ls.2 with
      | some v => .ok (some v)
      | none => .error ()
    else search_dep_file rest module

/-- Python truthiness of the value returned by `search_dep_file`: `None` and
the empty string are falsy (`if version:` on get_prerequisites.py lines 251
and 257). -/
def truthy : Option String → Bool
  | none => false
  | some v => v ≠ ""

/-- The filesystem state consulted by `module_version`, for one fixed
`(module, epics_base_version, target_arch)`:
* `archDefault`: contents of `configure/default.<arch>.dep` if that file
  exists (lines 248–249), as a list of lines;
* `epicsDefault`: contents of `configure/default.dep` if it exists
  (lines 254–255);
* `moduleListing`: `os.listdir` of the module's directory if it is a
  directory (lines 261–263);
* `depfileExists`: per installed version, whether
  `<version>/<eb>/lib/<arch>/<module>.dep` is a file (lines 264–266). -/
structure MVEnv where
  archDefault : Option (List String)
  epicsDefault : Option (List String)
  moduleListing : Option (List String)
  depfileExists : String → Bool

/-- The set `installed_versions` (get_prerequisites.py lines 260–267): the
listed versions whose dep file exists and which fully match the strict numeric
pattern.  (Python collects them into a `set`; since `os.listdir` never repeats
an entry the list has the same elements.) -/
def mv_installed (env : MVEnv) : List String :=
  (env.moduleListing.getD []).filter (fun v => env.depfileExists v && numeric3 v)

/-- Lines 269–273: sort the installed versions by `module_key` ascending,
traverse them in reverse (highest first) and return the first one accepted by
`module_match(comp_version, version)`; `none` when the loop falls through
(which also covers the `if installed_versions:` guard, since `find?` on an
empty list is `none`). -/
def mv_step3 (env : MVEnv) (comp : String) : Option String :=
  ((List.insertionSort sortKey (mv_installed env)).reverse).find?
    (fun v => module_match_str comp v)

/-- One default-file lookup step of `module_version`: skipped (no hit) when the
file does not exist, otherwise `search_dep_file` on its contents. -/
def default_lookup (contents : Option (List String)) (module : String) :
    Except Unit (Option String) :=
  match contents with
  | none => .ok none
  | some lines => search_dep_file lines module

/-- `module_version` (get_prerequisites.py lines 239–277): architecture-specific
default file first, then the architecture-independent one (each hit only counts
if the found version string is truthy), then the highest matching installed
version, else `None`.  An `IndexError` inside `search_dep_file` propagates. -/
def module_version (env : MVEnv) (module comp_version : String) :
    Except Unit (Option String) :=
  match default_lookup env.archDefault module with
  | .error e => .error e
  | .ok a =>
    if truthy a then .ok a
    else
      match default_lookup env.epicsDefault module with
      | .error e => .error e
      | .ok b =>
        if truthy b then .ok b
        else .ok (mv_step3 env comp_version)

/-- The priority order stated by the spec for version selection: the
architecture-specific entry if it hit, else the architecture-independent
entry if it hit, else the candidate from the installed versions. -/
def mv_first_hit (a b c : Option String) : Option String :=
  if truthy a then a else if truthy b then b else c

/-- What it means for `r` to be the spec's "highest installed version": when
`r = some v`, `v` is an installed strictly-numeric version accepted by the
version matcher and every accepted installed version is `≤` it in the
`(major, minor, patch)` ordering; when `r = none`, no installed
strictly-numeric version is accepted. -/
def best_installed (env : MVEnv) (comp : String) (r : Option String) : Prop :=
  match r with
  | some v =>
    v ∈ mv_installed env ∧ module_match_str comp v = true ∧
      ∀ w ∈ mv_installed env, module_match_str comp w = true → sortKey w v
  | none => ∀ w ∈ mv_installed env, module_match_str comp w = false

/-- Rule 4.3-1 of the spec, as used by the claim: an empty comparison spec
matches any candidate. -/
def empty_comp_matches_all : Prop :=
  ∀ s : String, module_match_str "" s = true

/-- A concrete `module_version` environment used by witnesses: neither default
file mentions the module `foo`, three version directories are listed of which
two are strictly numeric, and every dep file exists. -/
def mvEnvW : MVEnv :=
  ⟨some ["other,9.9"], some ["x,"], some ["1.0.0", "2.0.0", "junk"], fun _ => true⟩

/-! ### DependencyResolver

The resolver's interaction with the filesystem is abstracted into an
environment `RWorld`.  `mv` is the behaviour of `module_version(m, '', eb, ta)`
over the ambient filesystem for the run's fixed base version and target
architecture (called on get_prerequisites.py lines 85 and 179 — both calls pass
the same keyword arguments, so they see the same function of the module name);
`realDir` is the sanity check `os.path.isdir(...) and not os.path.islink(...)`
of line 145; `scanHit` is whether the per-version evidence scan of lines
147–171 (`find_headers` / `find_records` / `find_dtyps` / `find_templates`
against the fixed match sets collected earlier in `resolve`) succeeds for some
acceptable version of the module.  None of those scans reads or writes
`_dependencies`, so their outcome is a fixed function of the module name. -/

structure RWorld where
  mv : String → Option String
  realDir : String → Bool
  scanHit : String → Bool

/-- The module name of a user override: `module.rsplit(',', 1)[0]`
(get_prerequisites.py lines 80–81 and 176). -/
def ud_name (entry : String) : String :=
  (rsplit1 ',' entry).1

/-- The version recorded for a user override (lines 82–85): the text after the
last comma when there is one, otherwise the result of `module_version`. -/
def ud_version (w : RWorld) (entry : String) : Option String :=
  match (rsplit1 ',' entry).2 with
  | some v => some v
  | none => w.mv (ud_name entry)

/-- The user-override loop of `DependencyResolver.__init__` (get_prerequisites.py
lines 79–90): each override except one naming the module itself is added to the
dependency set.  (The unsupported-character test on line 86 only logs a
warning.)  Python's `set` of pairs is modelled as a `Finset`. -/
def init_dependencies (w : RWorld) (name : String) (ud : List String) : Finset Dep :=
  ud.foldl
    (fun deps entry =>
      if ud_name entry = name then deps
      else insert (ud_name entry, ud_version w entry) deps)
    ∅

/-- `DependencyResolver.depends_on` (lines 182–184): is the module name among
the first components of the current dependencies. -/
def depends_on (deps : Finset Dep) (m : String) : Bool :=
  decide (m ∈ deps.image Prod.fst)

/-- `DependencyResolver.add_dependency` (lines 173–180): skipped when the
module was manually listed among the user overrides, otherwise the pair
`(modulename, module_version(modulename, …))` is added. -/
def add_dependency (w : RWorld) (ud : List String) (deps : Finset Dep) (m : String) :
    Finset Dep :=
  if m ∈ ud.map ud_name then deps else insert (m, w.mv m) deps

/-- One iteration of the installed-module loop of `DependencyResolver.resolve`
(lines 139–171), acting on the pair (dependency set, list of modules whose
evidence scan has run): skip the module being resolved (line 141), skip modules
already depended on (line 143), skip entries failing the directory sanity check
(line 145); otherwise the evidence scan runs and on a hit `add_dependency` is
called (the `break` only ends the version loop, which the `scanHit` oracle
already folds in). -/
def resolve_step (w : RWorld) (name : String) (ud : List String)
    (st : Finset Dep × List String) (m : String) : Finset Dep × List String :=
  if m = name then st
  else if depends_on st.1 m then st
  else if !w.realDir m then st
  else if w.scanHit m then (add_dependency w ud st.1 m, st.2 ++ [m])
  else (st.1, st.2 ++ [m])

/-- `DependencyResolver.__init__` followed by `resolve` (the pipeline of
`main`, lines 422–424): fold the installed-module loop over `os.listdir` of the
prefix (whose entries are pairwise distinct, though nothing below needs that),
starting from the user-declared dependencies.  Returns the final dependency set
together with the list of modules whose evidence scan ran. -/
def resolver_run (w : RWorld) (name : String) (ud installed : List String) :
    Finset Dep × List String :=
  installed.foldl (resolve_step w name ud) (init_dependencies w name ud, [])

/-- The resolved dependency set, as returned by `list_deps` (lines 234–236). -/
def resolver_deps (w : RWorld) (name : String) (ud installed : List String) : Finset Dep :=
  (resolver_run w name ud installed).1

/-- The modules whose auto-detection scan was executed during `resolve`. -/
def resolver_scanned (w : RWorld) (name : String) (ud installed : List String) :
    List String :=
  (resolver_run w name ud installed).2

/-! ### recursive_solve -/

/-- The filesystem state consulted by `recursive_solve` for the run's fixed
`args`: whether `<prefix>/<name>/<version>/<eb>/include` is a directory
(get_prerequisites.py lines 299–300), the lines of
`<modules>/<name>/<version>/<eb>/lib/<arch>/<name>.dep` when that file exists
(lines 303–306), and the behaviour `mv name comp` of
`module_version(name, comp, args.epicsbase, args.targetarch)` (lines 314
and 316). -/
structure RSEnv where
  includeDirExists : String → String → Bool
  depfile : String → String → Option (List String)
  mv : String → String → Option String

/-- Helper for `pySplit`: split a character list at every occurrence of `sep`
(the result always has at least one part). -/
def pySplitAux (sep : Char) : List Char → List (List Char)
  | [] => [[]]
  | c :: cs =>
    match pySplitAux sep cs with
    | [] => [[]]
    | h :: t => if c = sep then [] :: h :: t else (c :: h) :: t

/-- Python `s.split(sep)` with a single-character separator and no limit:
`"".split(',') = ['']`, `",x".split(',') = ['', 'x']`, and so on. -/
def pySplit (sep : Char) (s : String) : List String :=
  (pySplitAux sep s.data).map String.mk

/-- The body of `recursive_solve` for a positive depth (get_prerequisites.py
lines 294–319), with `solve_prev` standing for the recursive call at the
already-decremented depth: the module itself is added; a falsy version (None
or empty, line 297), a missing include directory (line 300) or a missing dep
file (line 306) each return the set as it stands; otherwise every line of the
dep file is split on commas, re-resolved through `module_version` and solved
recursively, with all results unioned in. -/
def recursive_solve_go (env : RSEnv) (solve_prev : Dep → Finset Dep) (mdl : Dep) :
    Finset Dep :=
  let deps : Finset Dep := {mdl}
  match mdl.2 with
  | none => deps
  | some ver =>
    if ver = "" then deps
    else if !env.includeDirExists mdl.1 ver then deps
    else
      match env.depfile mdl.1 ver with
      | none => deps
      | some lines =>
        lines.foldl
          (fun acc line =>
            let dm := pySplit ',' (pyStrip line)
            let rmodule : Dep :=
              if dm.length = 2 then (dm.headD "", env.mv (dm.headD "") (dm.getD 1 ""))
              else (dm.headD "", env.mv (dm.headD "") "")
            acc ∪ solve_prev rmodule)
          deps

/-- `recursive_solve` (get_prerequisites.py lines 288–319).  At depth 0 the
source executes `return set()` (line 293) — before the module is added;
otherwise the depth is decremented (line 294) and the body above runs.
Written with `Nat.rec` so that applications reduce definitionally. -/
def recursive_solve (env : RSEnv) (mdl : Dep) (depth : Nat) : Finset Dep :=
  Nat.rec (motive := fun _ => Dep → Finset Dep)
    (fun _ => ∅) (fun _ ih => recursive_solve_go env ih) depth mdl

/-! ### Predicates used to state the claims about the resolver -/

/-- Uniqueness keyed on the module name: no module name appears with two
different versions (any two members agreeing on the name are equal). -/
def name_unique (s : Finset Dep) : Prop :=
  ∀ p ∈ s, ∀ q ∈ s, p.1 = q.1 → p = q

/-- The dependency set contains exactly the pair `("baz", "2.1.0")` for the
module `baz`: that pair is a member, and no other version of `baz` is. -/
def baz_override_exact (s : Finset Dep) : Prop :=
  ("baz", some "2.1.0") ∈ s ∧ ∀ v, ("baz", v) ∈ s → v = some "2.1.0"

-- Sanity checks of the embedding against hand-evaluated Python behaviour.
example : version_to_tup "1.2.3" = ⟨1, 2, 3, true⟩ := by decide
example : version_to_tup "1.2+" = ⟨1, 2, 0, false⟩ := by decide
example : version_to_tup "10.0.7+" = ⟨10, 0, 7, false⟩ := by decide
example : version_to_tup "" = ⟨0, 0, 0, false⟩ := by decide
example : version_to_tup "abc" = ⟨0, 0, 0, false⟩ := by decide
example : version_to_tup "01.2.3" = ⟨0, 0, 0, true⟩ := by decide
example : version_to_tup "1..2" = ⟨1, 0, 0, true⟩ := by decide
example : check "3.0.1" ["<3.1"] = true := by decide
example : check "4.0.0" ["<3.1"] = false := by decide
example : check "1.0.0" ["abc", ">0.1"] = false := by decide
example : check "1.0.0" [">0.1"] = true := by decide
example : check "2.0.0" ["<1.0", ">3.0"] = false := by decide
example : module_match_str "1.2+" "1.5.0" = true := by decide
example : module_match_str "1.2+" "0.9.0" = true := by decide
example : module_match_str "1.2" "1.2.0" = true := by decide
example : module_match_str "1.2" "1.3.0" = false := by decide
example : module_match_str "1.2.3" "5.2.3" = true := by decide
example : module_match_str "" "7.7.7" = true := by decide
example : rsplit1 ',' "baz,2.1.0" = ("baz", some "2.1.0") := by decide
example : rsplit1 ',' "baz" = ("baz", none) := by decide
example : rsplit1 ',' "a,b,c" = ("a,b", some "c") := by decide
example : module_key "1.2.3" = (1, 2, 3) := by decide
example : module_key "junk" = (0, 0, 0) := by decide
example : numeric3 "1.2.3" = true := by decide
example : numeric3 "1.2.3rc1" = false := by decide
example : numeric3 "1.2" = false := by decide
example : search_dep_file ["foo,1.0", "bar,2.0"] "bar" = .ok (some "2.0") := by rfl
example : search_dep_file ["bar"] "bar" = .error () := by rfl
example :
    mv_step3 ⟨none, none, some ["1.0.0", "2.0.0", "junk", "0.5.0"], fun _ => true⟩ "1.0+" =
      some "2.0.0" := by decide

-- Sanity checks for the resolver and solver embedding.
example :
    resolver_deps ⟨fun _ => none, fun _ => true, fun _ => false⟩ "foo"
      ["baz,2.1.0"] ["baz", "qux"] = {("baz", some "2.1.0")} := by decide
example :
    resolver_deps ⟨fun m => if m = "qux" then some "3.0.0" else none, fun _ => true,
      fun _ => true⟩ "foo" ["baz,2.1.0"] ["baz", "qux", "foo"] =
      {("baz", some "2.1.0"), ("qux", some "3.0.0")} := by decide
example :
    resolver_scanned ⟨fun _ => none, fun _ => true, fun _ => true⟩ "foo"
      ["baz,2.1.0"] ["baz", "qux", "foo"] = ["qux"] := by decide
example :
    recursive_solve ⟨fun _ _ => false, fun _ _ => none, fun _ _ => none⟩
      ("foo", some "1.0.0") 10 = {("foo", some "1.0.0")} := by decide
example :
    recursive_solve ⟨fun _ _ => false, fun _ _ => none, fun _ _ => none⟩
      ("foo", some "1.0.0") 0 = ∅ := by decide
example :
    (recursive_solve
      ⟨fun _ _ => true,
       fun n _ => if n = "a" then some ["b,1.0"] else none,
       fun n _ => if n = "b" then some "1.0.0" else none⟩
      ("a", some "2.0.0") 10).card = 2 ∧
    ("a", some "2.0.0") ∈
      recursive_solve
        ⟨fun _ _ => true,
         fun n _ => if n = "a" then some ["b,1.0"] else none,
         fun n _ => if n = "b" then some "1.0.0" else none⟩
        ("a", some "2.0.0") 10 ∧
    ("b", some "1.0.0") ∈
      recursive_solve
        ⟨fun _ _ => true,
         fun n _ => if n = "a" then some ["b,1.0"] else none,
         fun n _ => if n = "b" then some "1.0.0" else none⟩
        ("a", some "2.0.0") 10 := by decide

/-! ## Resolver lemmas -/

/-- Membership in the dependency set built by `__init__` from the user
overrides: exactly the pairs derived from override entries not naming the
module being resolved. -/
theorem init_dependencies_mem (w : RWorld) (name : String) (ud : List String) (p : Dep) :
    p ∈ init_dependencies w name ud ↔
      ∃ e ∈ ud, ud_name e ≠ name ∧ p = (ud_name e, ud_version w e) := by
  have main : ∀ (l : List String) (acc : Finset Dep),
      p ∈ l.foldl (fun deps entry =>
          if ud_name entry = name then deps
          else insert (ud_name entry, ud_version w entry) deps) acc ↔
        p ∈ acc ∨ ∃ e ∈ l, ud_name e ≠ name ∧ p = (ud_name e, ud_version w e) := by
    intro l
    induction l with
    | nil => intro acc; simp
    | cons e es ih =>
      intro acc
      rw [List.foldl_cons]
      by_cases h : ud_name e = name
      · rw [if_pos h, ih]
        simp [h]
      · rw [if_neg h, ih]
        simp only [Finset.mem_insert, List.mem_cons]
        constructor
        · rintro (⟨rfl | hacc⟩ | ⟨e', he', hn', rfl⟩)
          · exact Or.inr ⟨e, Or.inl rfl, h, rfl⟩
          · exact Or.inl hacc
          · exact Or.inr ⟨e', Or.inr he', hn', rfl⟩
        · rintro (hacc | ⟨e', he' | he', hn', rfl⟩)
          · exact Or.inl (Or.inr hacc)
          · exact Or.inl (Or.inl (by rw [he']))
          · exact Or.inr ⟨e', he', hn', rfl⟩
  rw [init_dependencies, main ud ∅]
  simp

/-- One resolver step only grows the dependency set. -/
theorem resolve_step_deps_subset (w : RWorld) (name : String) (ud : List String)
    (st : Finset Dep × List String) (m : String) :
    st.1 ⊆ (resolve_step w name ud st m).1 := by
  unfold resolve_step add_dependency
  split_ifs <;> simp [Finset.subset_insert]

/-- The whole installed-module loop only grows the dependency set. -/
theorem fold_deps_subset (w : RWorld) (name : String) (ud : List String)
    (l : List String) (st : Finset Dep × List String) :
    st.1 ⊆ (l.foldl (resolve_step w name ud) st).1 := by
  induction l generalizing st with
  | nil => exact Finset.Subset.refl _
  | cons m ms ih =>
    rw [List.foldl_cons]
    exact (resolve_step_deps_subset w name ud st m).trans (ih _)

/-- `depends_on` holds exactly when some pair in the set carries the name. -/
theorem depends_on_true_iff (s : Finset Dep) (q : String) :
    depends_on s q = true ↔ ∃ p ∈ s, p.1 = q := by
  simp [depends_on, Finset.mem_image]

/-- `depends_on` is monotone in the dependency set. -/
theorem depends_on_mono {s t : Finset Dep} (h : s ⊆ t) (q : String) :
    depends_on s q = true → depends_on t q = true := by
  simp only [depends_on_true_iff]
  rintro ⟨p, hp, hq⟩
  exact ⟨p, h hp, hq⟩

/-- Any member of the set after one resolver step was already there, or is the
freshly added pair `(m, module_version m)` guarded by a failed `depends_on`. -/
theorem resolve_step_mem (w : RWorld) (name : String) (ud : List String)
    (st : Finset Dep × List String) (m : String) (p : Dep)
    (hp : p ∈ (resolve_step w name ud st m).1) :
    p ∈ st.1 ∨ (p = (m, w.mv m) ∧ depends_on st.1 m = false) := by
  unfold resolve_step add_dependency at hp
  split_ifs at hp with h1 h2 h3 h4 h5
  · exact Or.inl hp
  · exact Or.inl hp
  · exact Or.inl hp
  · exact Or.inl hp
  · simp only [Finset.mem_insert] at hp
    rcases hp with rfl | hp
    · exact Or.inr ⟨rfl, by revert h2; cases depends_on st.1 m <;> simp⟩
    · exact Or.inl hp
  · exact Or.inl hp

/-- Any member of the final dependency set was present initially, or its
module name was not yet depended on initially. -/
theorem fold_deps_mem (w : RWorld) (name : String) (ud : List String)
    (l : List String) (st : Finset Dep × List String) (p : Dep)
    (hp : p ∈ (l.foldl (resolve_step w name ud) st).1) :
    p ∈ st.1 ∨ depends_on st.1 p.1 = false := by
  induction l generalizing st with
  | nil => exact Or.inl hp
  | cons m ms ih =>
    rw [List.foldl_cons] at hp
    rcases ih _ hp with h | h
    · rcases resolve_step_mem w name ud st m p h with h' | ⟨rfl, hdep⟩
      · exact Or.inl h'
      · exact Or.inr hdep
    · by_cases hd : depends_on st.1 p.1 = true
      · have := depends_on_mono (resolve_step_deps_subset w name ud st m) p.1 hd
        rw [this] at h
        cases h
      · exact Or.inr (by revert hd; cases depends_on st.1 p.1 <;> simp)

/-- One resolver step preserves name-keyed uniqueness: the `depends_on` guard
ensures any inserted pair carries a fresh module name. -/
theorem resolve_step_unique (w : RWorld) (name : String) (ud : List String)
    (st : Finset Dep × List String) (m : String) (h : name_unique st.1) :
    name_unique (resolve_step w name ud st m).1 := by
  unfold resolve_step add_dependency
  split_ifs with h1 h2 h3 h4 h5
  · exact h
  · exact h
  · exact h
  · exact h
  · intro p hp q hq hpq
    simp only [Finset.mem_insert] at hp hq
    have hfresh : ∀ r ∈ st.1, r.1 ≠ m := by
      intro r hr hrm
      exact h2 ((depends_on_true_iff st.1 m).mpr ⟨r, hr, hrm⟩)
    rcases hp with rfl | hp <;> rcases hq with rfl | hq
    · rfl
    · exact absurd hpq.symm (hfresh q hq)
    · exact absurd hpq (hfresh p hp)
    · exact h p hp q hq hpq
  · exact h

/-- The installed-module loop preserves name-keyed uniqueness. -/
theorem fold_unique (w : RWorld) (name : String) (ud : List String)
    (l : List String) (st : Finset Dep × List String) (h : name_unique st.1) :
    name_unique ((l.foldl (resolve_step w name ud) st).1) := by
  induction l generalizing st with
  | nil => exact h
  | cons m ms ih =>
    rw [List.foldl_cons]
    exact ih _ (resolve_step_unique w name ud st m h)

/-- A module already depended on before the loop starts is never scanned. -/
theorem fold_scan_skip (w : RWorld) (name : String) (ud : List String)
    (l : List String) (st : Finset Dep × List String) (q : String)
    (hdep : depends_on st.1 q = true) (hq : q ∉ st.2) :
    q ∉ (l.foldl (resolve_step w name ud) st).2 := by
  induction l generalizing st with
  | nil => exact hq
  | cons m ms ih =>
    rw [List.foldl_cons]
    refine ih _ (depends_on_mono (resolve_step_deps_subset w name ud st m) q hdep) ?_
    unfold resolve_step
    split_ifs with h1 h2 h3 h4
    · exact hq
    · exact hq
    · exact hq
    · simp only [List.mem_append, List.mem_singleton]
      rintro (hmem | rfl)
      · exact hq hmem
      · exact h2 hdep
    · simp only [List.mem_append, List.mem_singleton]
      rintro (hmem | rfl)
      · exact hq hmem
      · exact h2 hdep

/-! ## Version-selection lemmas -/

/-- The key ordering is reflexive. -/
theorem keyLex_refl (x : Nat × Nat × Nat) : keyLex x x = true := by
  simp [keyLex]

/-- On a list sorted in descending key order, `find?` returns a member
satisfying the predicate that every satisfying member is `≤` in key order;
and when it returns nothing, no member satisfies the predicate. -/
theorem find_desc_best (p : String → Bool) (l : List String)
    (hd : l.Pairwise (fun a b => sortKey b a)) :
    (∀ v, l.find? p = some v →
      v ∈ l ∧ p v = true ∧ ∀ w ∈ l, p w = true → sortKey w v) ∧
    (l.find? p = none → ∀ w ∈ l, p w = false) := by
  induction l with
  | nil => simp
  | cons x xs ih =>
    rw [List.pairwise_cons] at hd
    obtain ⟨hx, hxs⟩ := hd
    obtain ⟨ihs, ihn⟩ := ih hxs
    constructor
    · intro v hv
      cases hpx : p x with
      | true =>
        simp only [List.find?, hpx] at hv
        obtain rfl : x = v := by injection hv
        refine ⟨List.mem_cons_self _ _, hpx, ?_⟩
        intro w hw _
        rcases List.mem_cons.mp hw with rfl | hw'
        · exact keyLex_refl _
        · exact hx w hw'
      | false =>
        simp only [List.find?, hpx] at hv
        obtain ⟨hvmem, hpv, hbound⟩ := ihs v hv
        refine ⟨List.mem_cons_of_mem _ hvmem, hpv, ?_⟩
        intro w hw hpw
        rcases List.mem_cons.mp hw with rfl | hw'
        · rw [hpx] at hpw
          cases hpw
        · exact hbound w hw' hpw
    · intro hn w hw
      cases hpx : p x with
      | true =>
        simp only [List.find?, hpx] at hn
        exact Option.noConfusion hn
      | false =>
        simp only [List.find?, hpx] at hn
        rcases List.mem_cons.mp hw with rfl | hw'
        · exact hpx
        · exact ihn hn w hw'

/-- The sorted-and-reversed traversal of `mv_step3` selects exactly the
highest matching installed version. -/
theorem mv_step3_best (env : MVEnv) (comp : String) :
    best_installed env comp (mv_step3 env comp) := by
  have hsorted : (List.insertionSort sortKey (mv_installed env)).Sorted sortKey :=
    List.sorted_insertionSort sortKey (mv_installed env)
  have hdesc : ((List.insertionSort sortKey (mv_installed env)).reverse).Pairwise
      (fun a b => sortKey b a) := by
    rw [List.pairwise_reverse]
    exact hsorted
  have hmem : ∀ w : String,
      w ∈ (List.insertionSort sortKey (mv_installed env)).reverse ↔
        w ∈ mv_installed env := by
    intro w
    rw [List.mem_reverse, List.mem_insertionSort]
  obtain ⟨hsome, hnone⟩ :=
    find_desc_best (fun v => module_match_str comp v)
      ((List.insertionSort sortKey (mv_installed env)).reverse) hdesc
  unfold best_installed
  cases hr : mv_step3 env comp with
  | none =>
    intro w hw
    exact hnone hr w ((hmem w).mpr hw)
  | some v =>
    obtain ⟨hvmem, hpv, hbound⟩ := hsome v hr
    exact ⟨(hmem v).mp hvmem, hpv, fun w hw hpw => hbound w ((hmem w).mpr hw) hpw⟩

/-! ## Claim theorems -/

/-- C1: the code's behaviour at the claim's own examples.  The claim states
that for the open-range spec `1.2+` a candidate must agree on the major
component and be `≥` on the minor, so that `0.9.0` must not match; but
check_excludes.py line 107 compares `oth.major` with itself instead of with
`ver.major`, so the major-equality requirement of the `major.minor` case is
dropped and `module_match(parse("1.2+"), parse("0.9.0"))` evaluates to True. -/
theorem c1_open_range_code_behaviour :
    module_match_str "1.2+" "1.5.0" = true ∧ module_match_str "1.2+" "0.9.0" = true := by
  decide

/-- C2: the code's behaviour at the claim's examples plus a failing input.
The claim states that an exact full spec pins major, minor and patch together,
so `module_match(parse("1.2.3"), parse("5.2.3"))` must be false; but
check_excludes.py line 102 compares `ver.major` with itself instead of with
`oth.major`, so the candidate's major is ignored in the full-spec case and the
call evaluates to True. -/
theorem c2_exact_code_behaviour :
    module_match_str "1.2" "1.2.0" = true ∧ module_match_str "1.2" "1.3.0" = false ∧
    module_match_str "1.2.3" "5.2.3" = true := by
  decide

/-- C3 counterexample: with the valid version `1.0.0` and conditions
`["abc", ">0.1"]`, the second condition alone is satisfied, yet `check`
returns false — the unparsable first condition makes the whole call return
False (check_excludes.py line 84) instead of skipping to the next condition
as the claim states. -/
theorem c3_counterexample :
    check "1.0.0" [">0.1"] = true ∧ check "1.0.0" ["abc", ">0.1"] = false := by
  decide

/-- C3 (amended): `check` never raises (it is a total function), and a
condition string that does not parse makes `check` return false immediately:
once evaluation reaches an unparsable condition the remaining conditions are
not evaluated, whatever they are. -/
theorem c3_amended_illegal_condition_aborts (version bad : String) (rest : List String)
    (h : parse_cond bad.data = none) : check version (bad :: rest) = false := by
  unfold check
  split
  · unfold check_conds
    rw [h]
  · rfl

/-- Witness for C3 (amended) at `version = "1.0.0"`, `bad = "abc"`,
`rest = [">0.1"]`. -/
theorem c3_amended_witness :
    parse_cond "abc".data = none ∧ check "1.0.0" ["abc", ">0.1"] = false :=
  ⟨by decide, c3_amended_illegal_condition_aborts "1.0.0" "abc" [">0.1"] (by decide)⟩

/-- C5 counterexample: at depth 0, `recursive_solve` does not return the
singleton of the dependency it was given — get_prerequisites.py line 293
executes `return set()` before the module is added. -/
theorem c5_counterexample :
    recursive_solve ⟨fun _ _ => false, fun _ _ => none, fun _ _ => none⟩
      ("foo", some "1.0.0") 0 ≠ {("foo", some "1.0.0")} := by
  decide

/-- C5 (amended): for every dependency and every environment,
`recursive_solve` called with depth 0 returns the EMPTY set, without
recursing further — the branch is truncated, but the dependency itself is
dropped from the result rather than kept as a singleton. -/
theorem c5_amended_depth_zero_empty (env : RSEnv) (mdl : Dep) :
    recursive_solve env mdl 0 = ∅ :=
  rfl

/-- C7 counterexample: `check("4.0.0", ["<3.1"])` returns false, not true as
the claim states — `4 < 3` fails and the majors differ, so the cascading
comparison never reaches the minor or patch fields. -/
theorem c7_counterexample : check "4.0.0" ["<3.1"] = false := by
  decide

/-- C7 (amended): under the cascading comparison `check("3.0.1", ["<3.1"])`
returns true (majors equal, so the minor comparison applies), while
`check("4.0.0", ["<3.1"])` returns false (the major comparison `4 < 3` fails
and the majors differ, so no later field is consulted). -/
theorem c7_amended_cascade_examples :
    check "3.0.1" ["<3.1"] = true ∧ check "4.0.0" ["<3.1"] = false := by
  decide

/-- C9: any input string matched by none of the three accepted version
patterns is parsed as the zero spec with `exact = false`; `version_to_tup`
is a total function, so it never raises on any input string. -/
theorem c9_unparsable_is_zero_spec (s : String)
    (h1 : p1 s.data = none) (h2 : p2 s.data = none) (h3 : p3 s.data = none) :
    version_to_tup s = ⟨0, 0, 0, false⟩ := by
  unfold version_to_tup
  rw [h1, h2, h3]

/-- Witness for C9 at the input `"x1.2"`, which none of the three patterns
matches. -/
theorem c9_witness :
    p1 "x1.2".data = none ∧ p2 "x1.2".data = none ∧ p3 "x1.2".data = none ∧
    version_to_tup "x1.2" = ⟨0, 0, 0, false⟩ :=
  ⟨by decide, by decide, by decide,
   c9_unparsable_is_zero_spec "x1.2" (by decide) (by decide) (by decide)⟩

/-- C10: for a dependency with a non-empty version and positive depth, if the
module's include directory for the active base version does not exist, or its
recorded dependency file does not exist, `recursive_solve` returns the
singleton of that dependency — the transitive closure is silently truncated at
that node (the function is total, so nothing is raised or reported). -/
theorem c10_missing_node_truncates (env : RSEnv) (name ver : String) (depth : Nat)
    (hver : ver ≠ "")
    (hmiss : env.includeDirExists name ver = false ∨ env.depfile name ver = none) :
    recursive_solve env (name, some ver) (depth + 1) = {(name, some ver)} := by
  have hgo : recursive_solve env (name, some ver) (depth + 1) =
      recursive_solve_go env (fun m => recursive_solve env m depth) (name, some ver) := rfl
  rw [hgo]
  rcases hmiss with h | h
  · simp [recursive_solve_go, hver, h]
  · cases hdir : env.includeDirExists name ver
    · simp [recursive_solve_go, hver, hdir]
    · simp [recursive_solve_go, hver, hdir, h]

/-- Witness for C10 at the Python default depth 10, with a filesystem in which
the module's include directory is absent. -/
theorem c10_witness :
    ("1.0.0" : String) ≠ "" ∧
    recursive_solve ⟨fun _ _ => false, fun _ _ => none, fun _ _ => none⟩
      ("foo", some "1.0.0") 10 = {("foo", some "1.0.0")} :=
  ⟨by decide,
   c10_missing_node_truncates ⟨fun _ _ => false, fun _ _ => none, fun _ _ => none⟩
     "foo" "1.0.0" 9 (by decide) (Or.inl rfl)⟩

/-- C4 counterexample: two user overrides for the same module with different
versions both end up in the resolved dependency set — `__init__`
(get_prerequisites.py lines 79–90) adds every override without checking
whether the module name is already present, so uniqueness keyed on the module
name fails. -/
theorem c4_counterexample :
    ("baz", some "1.0.0") ∈ resolver_deps ⟨fun _ => none, fun _ => true, fun _ => false⟩
        "foo" ["baz,1.0.0", "baz,2.0.0"] [] ∧
    ("baz", some "2.0.0") ∈ resolver_deps ⟨fun _ => none, fun _ => true, fun _ => false⟩
        "foo" ["baz,1.0.0", "baz,2.0.0"] [] ∧
    (some "1.0.0" : Option String) ≠ some "2.0.0" := by
  decide

/-- C4 (amended): provided the user-declared overrides declare each module
name at most once, every dependency set produced by the resolver (from any
combination of overrides and auto-detection over any installed-module list)
contains each module name at most once: no two members agree on the name but
differ in the version. -/
theorem c4_amended_name_unique (w : RWorld) (name : String) (ud installed : List String)
    (h : (ud.map ud_name).Nodup) :
    name_unique (resolver_deps w name ud installed) := by
  unfold resolver_deps resolver_run
  apply fold_unique
  intro p hp q hq hpq
  rw [init_dependencies_mem] at hp hq
  obtain ⟨e1, he1, hn1, rfl⟩ := hp
  obtain ⟨e2, he2, hn2, rfl⟩ := hq
  have he : e1 = e2 := List.inj_on_of_nodup_map h he1 he2 hpq
  rw [he]

/-- Witness for C4 (amended): two distinct override names, two installed
modules that both scan positive. -/
theorem c4_amended_witness :
    ((["baz,2.1.0", "qux"].map ud_name).Nodup) ∧
    name_unique (resolver_deps ⟨fun _ => none, fun _ => true, fun _ => true⟩ "foo"
      ["baz,2.1.0", "qux"] ["alpha", "beta"]) :=
  ⟨by decide,
   c4_amended_name_unique ⟨fun _ => none, fun _ => true, fun _ => true⟩ "foo"
     ["baz,2.1.0", "qux"] ["alpha", "beta"] (by decide)⟩

/-- C8: when the user override `"baz,2.1.0"` is supplied (and it is the only
override naming `baz`, for a module other than `baz` itself), the resolved
set contains exactly `("baz", "2.1.0")` for the module `baz` — no other
version of `baz` can be derived — and the auto-detection scan never runs for
`baz`, whatever the registry contains. -/
theorem c8_override_wins (w : RWorld) (name : String) (ud installed : List String)
    (h1 : name ≠ "baz") (h2 : "baz,2.1.0" ∈ ud)
    (h3 : ∀ e ∈ ud, ud_name e = "baz" → e = "baz,2.1.0") :
    baz_override_exact (resolver_deps w name ud installed) ∧
    "baz" ∉ resolver_scanned w name ud installed := by
  have hinit : ("baz", some "2.1.0") ∈ init_dependencies w name ud := by
    rw [init_dependencies_mem]
    exact ⟨"baz,2.1.0", h2, fun hh => h1 hh.symm, rfl⟩
  have hdep : depends_on (init_dependencies w name ud) "baz" = true :=
    (depends_on_true_iff _ _).mpr ⟨("baz", some "2.1.0"), hinit, rfl⟩
  refine ⟨⟨?_, ?_⟩, ?_⟩
  · exact fold_deps_subset w name ud installed (init_dependencies w name ud, []) hinit
  · intro v hv
    rcases fold_deps_mem w name ud installed (init_dependencies w name ud, [])
        ("baz", v) hv with hin | hfalse
    · rw [init_dependencies_mem] at hin
      obtain ⟨e, he, hne, heq⟩ := hin
      have hfst : ("baz" : String) = ud_name e := congrArg Prod.fst heq
      have he' : e = "baz,2.1.0" := h3 e he hfst.symm
      rw [he'] at heq
      exact congrArg Prod.snd heq
    · rw [hdep] at hfalse
      cases hfalse
  · exact fold_scan_skip w name ud installed (init_dependencies w name ud, []) "baz"
      hdep (by simp)

/-- Witness for C8: resolving `foo` with the single override `"baz,2.1.0"`
against a registry containing `baz` and `qux`, both of which would scan
positive. -/
theorem c8_witness :
    ("foo" : String) ≠ "baz" ∧ "baz,2.1.0" ∈ ["baz,2.1.0"] ∧
    baz_override_exact (resolver_deps ⟨fun _ => none, fun _ => true, fun _ => true⟩ "foo"
      ["baz,2.1.0"] ["baz", "qux"]) ∧
    "baz" ∉ resolver_scanned ⟨fun _ => none, fun _ => true, fun _ => true⟩ "foo"
      ["baz,2.1.0"] ["baz", "qux"] :=
  ⟨by decide, by decide,
   (c8_override_wins ⟨fun _ => none, fun _ => true, fun _ => true⟩ "foo"
     ["baz,2.1.0"] ["baz", "qux"] (by decide) (by decide) (by decide)).1,
   (c8_override_wins ⟨fun _ => none, fun _ => true, fun _ => true⟩ "foo"
     ["baz,2.1.0"] ["baz", "qux"] (by decide) (by decide) (by decide)).2⟩

/-- C6: `module_version` resolves by trying, in order, and returning the first
hit of (1) the entry in the architecture-specific default file, (2) the entry
in the architecture-independent default file, (3) the highest installed
strictly-numeric version satisfying `module_match` against the requested
comparison version (an empty comparison spec matching anything); when all
three miss the result is no version (`None`).  Stated for any environment in
which the two default-file lookups do not raise (a matching mapping line
lacking a comma would raise `IndexError`, which `module_version` propagates):
the result is exactly `mv_first_hit` of the two lookup results and the
installed-version candidate, the latter being the highest matching installed
version in the `(major, minor, patch)` ordering. -/
theorem c6_module_version_priority (env : MVEnv) (module comp : String)
    (a b : Option String)
    (hA : default_lookup env.archDefault module = .ok a)
    (hB : default_lookup env.epicsDefault module = .ok b) :
    module_version env module comp = .ok (mv_first_hit a b (mv_step3 env comp)) ∧
    best_installed env comp (mv_step3 env comp) ∧ empty_comp_matches_all := by
  refine ⟨?_, mv_step3_best env comp, fun s => rfl⟩
  unfold module_version mv_first_hit
  rw [hA, hB]
  dsimp only
  split_ifs <;> rfl

/-- Witness for C6: in the environment `mvEnvW` the module `foo` misses both
default files, and the highest matching installed numeric version is selected
from the listing. -/
theorem c6_witness :
    module_version mvEnvW "foo" "1.0+" =
      .ok (mv_first_hit none none (mv_step3 mvEnvW "1.0+")) ∧
    best_installed mvEnvW "1.0+" (mv_step3 mvEnvW "1.0+") ∧ empty_comp_matches_all :=
  c6_module_version_priority mvEnvW "foo" "1.0+" none none rfl rfl

end Require
